import Mathlib

/-!
# Verification of the markdown batch-translation pipeline

Shallow embedding of `markdown-translator.js`: directory scanning
(`findMarkdownFiles`), the staleness check (`isAlreadyTranslated`), the
translation adapter (`translateToJapanese`), output materialization
(`saveTranslatedFile`), the sequential batch loop (`processBatchWithDelay`)
and the top-level run (`translateMarkdownFiles` / `checkSourceDirectory`).

Modelling conventions:
* Filesystem paths are lists of components (`path.join` is list append,
  `path.basename` is the last component).
* `fs.stat` / `fs.readFile` are modelled as functions from paths to
  `Option`; `none` models the promise rejecting (the operation throwing).
* The external translation service is a parameter
  `tr : String → Option String`; `none` models the API call throwing, and
  the adapter's catch converts it to the empty string exactly as the
  source does.  An undefined `response.text` is likewise `none`.
* Side effects of the batch loop are recorded as an explicit event trace
  (staleness-oracle consultations, service calls, file writes, and the
  `setTimeout` pacing delay), in the order they occur in the source.
* Write operations (`fs.mkdir` + `fs.writeFile`) are modelled as always
  succeeding; `mkdir` is a no-op on the path-to-content map.
-/

namespace MdTranslator

/-- A filesystem path, as its list of components (`path.join` = `++`). -/
abbrev Path := List String

/-- `path.basename`: the last component of a path. -/
def basename (p : Path) : String := p.getLastD ""

/-- The part of an `fs.stat` result that the program consults:
`stat.isFile()` and `stat.mtime`.  Modification times are naturals. -/
structure Stat where
  isFile : Bool
  mtime : Nat
deriving DecidableEq, Repr

/-- The ambient filesystem, as consulted by the batch loop:
`access p = true` models `fs.access` resolving, `stat` models `fs.stat`
(`none` = throws), `content` models `fs.readFile` (`none` = throws). -/
structure FS where
  access : Path → Bool
  stat : Path → Option Stat
  content : Path → Option String

/-- The configuration globals of `markdown-translator.js` (lines 51–58):
source directory, base output directory, model name, and the force flag. -/
structure Config where
  SOURCE_DIR : Path
  BASE_OUTPUT_DIR : Path
  MODEL_NAME : String
  FORCE_TRANSLATE : Bool

/-- A character matched by the JavaScript character class `[\w.-]`:
ASCII letter, digit, underscore, dot or hyphen. -/
def isWordDotDash (c : Char) : Bool :=
  c.isAlphanum || c = '_' || c = '.' || c = '-'

/-- Line 55: `MODEL_NAME.replace(/[^\w.-]/g, "_")` — every character not
in `[\w.-]` is replaced by an underscore. -/
def MODEL_DIR_NAME (model : String) : String :=
  ⟨model.data.map (fun c => if isWordDotDash c then c else '_')⟩

/-- Line 57: `OUTPUT_DIR = path.join(BASE_OUTPUT_DIR, MODEL_DIR_NAME)`. -/
def OUTPUT_DIR (c : Config) : Path :=
  c.BASE_OUTPUT_DIR ++ [ MODEL_DIR_NAME c.MODEL_NAME ]

/-- `path.relative(base, p)` for the only case the program reaches
(`p` is produced by the scanner, hence lies under `base`): drop the
leading `base` components.  Paths not under `base` are returned
unchanged (the `..`-producing case of `path.relative` is unreachable). -/
def relativePath (base p : Path) : Path :=
  if base <+: p then p.drop base.length else p

/-! ## Tree Scanner (`findMarkdownFiles`, lines 68–91) -/

/-- `String.prototype.endsWith`, modelled on the character list. -/
def strEndsWith (s suffix : String) : Bool :=
  suffix.data.isSuffixOf s.data

/-- Line 81: `file.endsWith(".md") || file.endsWith(".markdown")`. -/
def isMarkdownName (s : String) : Bool :=
  strEndsWith s ".md" || strEndsWith s ".markdown"

/-- The entry list returned by `fs.readdir` for one directory, with the
filesystem facts the scanner consults inlined: for each entry whether
`fs.stat` on it succeeds (`statOk`), whether it is a directory, and for
directories whether their own `fs.readdir` succeeds (`readable`) and
their entries. -/
inductive Entries where
  | nil : Entries
  | fileCons (name : String) (statOk : Bool) (rest : Entries) : Entries
  | dirCons (name : String) (statOk readable : Bool) (children : Entries)
      (rest : Entries) : Entries
deriving DecidableEq, Repr

/-- The `for` loop body of `findMarkdownFiles` over one directory's
entries.  `none` models an `fs.stat` rejection escaping the loop to the
enclosing `catch` (which discards all files collected so far in this
directory).  A sub-directory's scan is the recursive
`findMarkdownFiles` call: it catches its own errors, yielding `[]` when
its `readdir` fails. -/
def scanEntries (dirPath : Path) : Entries → Option (List Path)
  | .nil => some []
  | .fileCons name statOk rest =>
      if statOk then
        if isMarkdownName name then
          (scanEntries dirPath rest).map (fun acc => (dirPath ++ [name]) :: acc)
        else
          scanEntries dirPath rest
      else none
  | .dirCons name statOk readable children rest =>
      if statOk then
        let sub :=
          if readable then (scanEntries (dirPath ++ [name]) children).getD []
          else []
        (scanEntries dirPath rest).map (fun acc => sub ++ acc)
      else none

/-- `findMarkdownFiles(directory)`: `readdir` the directory (failure is
caught and yields `[]`), run the loop, and catch any stat rejection as
`[]`.  The directory to scan is given by its path, whether its
`readdir` succeeds, and its entries. -/
def findMarkdownFiles (dirPath : Path) (readable : Bool) (children : Entries) :
    List Path :=
  if readable then (scanEntries dirPath children).getD [] else []

/-! ## Staleness Oracle (`isAlreadyTranslated`, lines 112–127) -/

/-- Lines 113–114: the output location the staleness check consults —
`path.join(OUTPUT_DIR, path.basename(filePath))`. -/
def checkedOutputPath (c : Config) (filePath : Path) : Path :=
  OUTPUT_DIR c ++ [basename filePath]

/-- `isAlreadyTranslated(filePath)`: stat the checked output path, then
the source; any rejection is caught as `false`; otherwise answer
`outputStat.isFile() && outputStat.mtime >= sourceStat.mtime`. -/
def isAlreadyTranslated (c : Config) (fs : FS) (filePath : Path) : Bool :=
  match fs.stat (checkedOutputPath c filePath) with
  | none => false
  | some outputStat =>
      match fs.stat filePath with
      | none => false
      | some sourceStat =>
          outputStat.isFile && decide (sourceStat.mtime ≤ outputStat.mtime)

/-! ## Reader, Translation Client, Output Materializer -/

/-- `readMarkdownFile` (lines 98–105): read the file, catching any error
as the empty string. -/
def readMarkdownFile (fs : FS) (filePath : Path) : String :=
  (fs.content filePath).getD ""

/-- `translateToJapanese` (lines 134–153): one service call; any error
(or an undefined `response.text`, both modelled by `tr text = none`) is
caught and the empty string is returned. -/
def translateToJapanese (tr : String → Option String) (text : String) : String :=
  (tr text).getD ""

/-- Lines 166–167 of `saveTranslatedFile`: the written output path is
`path.join(OUTPUT_DIR, path.relative(SOURCE_DIR, filePath))`. -/
def savedOutputPath (c : Config) (filePath : Path) : Path :=
  OUTPUT_DIR c ++ relativePath c.SOURCE_DIR filePath

/-- Writing a file: the path now stats as a file with the current time
as its mtime, and reads back the written text.  (`mkdir -p` has no
observable effect in this model.) -/
def writeFile (fs : FS) (p : Path) (text : String) (now : Nat) : FS where
  access := fs.access
  stat := fun q => if q = p then some ⟨true, now⟩ else fs.stat q
  content := fun q => if q = p then some text else fs.content q

/-- `saveTranslatedFile(filePath, content)` (lines 160–177): create the
directories and write `content` at the mirrored output path. -/
def saveTranslatedFile (c : Config) (fs : FS) (filePath : Path)
    (content : String) (now : Nat) : FS :=
  writeFile fs (savedOutputPath c filePath) content now

/-! ## Batch Orchestrator (`processBatchWithDelay`, lines 183–215) -/

/-- One observable side effect of the batch loop, in source order:
consulting the staleness oracle (`await isAlreadyTranslated`), one
translation-service request, one output-file write, and the pacing
delay (`await new Promise(... setTimeout ..., 1000)`). -/
inductive Event where
  | oracleCheck (filePath : Path) : Event
  | serviceCall (filePath : Path) : Event
  | fileWrite (outputPath : Path) : Event
  | delay : Event
deriving DecidableEq, Repr

/-- The outcome of processing one item of the batch: the filesystem
after the item, the clock after the item (the pacing delay advances it
by one tick), the increments of the two counters, and the item's event
trace. -/
structure ItemResult where
  fs : FS
  clock : Nat
  translated : Nat
  skipped : Nat
  events : List Event

/-- The body of the `for` loop of `processBatchWithDelay` for one file:
skip if `!FORCE_TRANSLATE && await isAlreadyTranslated(file)` (the
`continue` bypasses the delay); read the content, bailing out (again
before the delay) when it is empty; translate; save and count only a
non-empty result; then the pacing delay.  The loop's `catch` is
unreachable: every callee catches its own errors. -/
def processItem (c : Config) (tr : String → Option String) (fs : FS)
    (clock : Nat) (filePath : Path) : ItemResult :=
  if !c.FORCE_TRANSLATE && isAlreadyTranslated c fs filePath then
    ⟨fs, clock, 0, 1, [Event.oracleCheck filePath]⟩
  else
    let oracleEvents : List Event :=
      if c.FORCE_TRANSLATE then [] else [Event.oracleCheck filePath]
    let content := readMarkdownFile fs filePath
    if content = "" then
      ⟨fs, clock, 0, 0, oracleEvents⟩
    else
      let translated := translateToJapanese tr content
      if translated = "" then
        ⟨fs, clock + 1, 0, 0,
          oracleEvents ++ [Event.serviceCall filePath, Event.delay]⟩
      else
        ⟨saveTranslatedFile c fs filePath translated clock, clock + 1, 1, 0,
          oracleEvents ++
            [Event.serviceCall filePath,
             Event.fileWrite (savedOutputPath c filePath), Event.delay]⟩

/-- The state after a (partial or complete) batch: final filesystem and
clock, the two counters `translatedCount` / `skippedCount`, and the
concatenated event trace. -/
structure BatchResult where
  fs : FS
  clock : Nat
  translatedCount : Nat
  skippedCount : Nat
  events : List Event

/-- `processBatchWithDelay(files)`: process the discovered files
strictly in order, threading the filesystem and the clock and summing
the counters. -/
def processBatchWithDelay (c : Config) (tr : String → Option String) :
    List Path → FS → Nat → BatchResult
  | [], fs, clock => ⟨fs, clock, 0, 0, []⟩
  | f :: rest, fs, clock =>
      let r := processItem c tr fs clock f
      let b := processBatchWithDelay c tr rest r.fs r.clock
      ⟨b.fs, b.clock, r.translated + b.translatedCount,
        r.skipped + b.skippedCount, r.events ++ b.events⟩

/-! ## Top-level run (`translateMarkdownFiles` / `checkSourceDirectory`) -/

/-- How a run ends: `aborted` models `process.exit(1)` from
`checkSourceDirectory`; `completed` carries the summary
(total discovered, translated, skipped). -/
inductive RunOutcome where
  | aborted : RunOutcome
  | completed (total translated skipped : Nat) : RunOutcome
deriving DecidableEq, Repr

/-- The observable result of one run: its outcome, the filesystem and
clock afterwards, and the event trace. -/
structure RunResult where
  outcome : RunOutcome
  fs : FS
  clock : Nat
  events : List Event

/-- `translateMarkdownFiles()` (lines 220–254): scan the source tree
(the source root's `readdir` success and entries are `rootReadable` /
`root`); return early on an empty batch; otherwise run the batch and
report the summary. -/
def translateMarkdownFiles (c : Config) (tr : String → Option String)
    (rootReadable : Bool) (root : Entries) (fs : FS) (clock : Nat) :
    RunResult :=
  let markdownFiles := findMarkdownFiles c.SOURCE_DIR rootReadable root
  if markdownFiles.isEmpty then
    ⟨RunOutcome.completed 0 0 0, fs, clock, []⟩
  else
    let b := processBatchWithDelay c tr markdownFiles fs clock
    ⟨RunOutcome.completed markdownFiles.length b.translatedCount b.skippedCount,
      b.fs, b.clock, b.events⟩

/-- `checkSourceDirectory()` (lines 257–271): `fs.access(SOURCE_DIR)`;
on rejection, `process.exit(1)` before anything else runs; on success,
run `translateMarkdownFiles`. -/
def checkSourceDirectory (c : Config) (tr : String → Option String)
    (rootReadable : Bool) (root : Entries) (fs : FS) (clock : Nat) :
    RunResult :=
  if fs.access c.SOURCE_DIR then
    translateMarkdownFiles c tr rootReadable root fs clock
  else
    ⟨RunOutcome.aborted, fs, clock, []⟩

/-! ## Concrete test fixtures

Small concrete configurations, filesystems and trees used by the
witnesses and counterexamples below. -/

/-- A run configuration: source root `src`, output root `out`, model
name `m`, force mode off.  `OUTPUT_DIR` is then `out/m`. -/
def exampleConfig : Config := ⟨["src"], ["out"], "m", false⟩

/-- The same configuration with force mode on. -/
def forceConfig : Config := ⟨["src"], ["out"], "m", true⟩

/-- A translation service that always succeeds. -/
def okTranslate : String → Option String := fun s => some ("J" ++ s)

/-- A translation service that fails (call throws) exactly on the
document whose text is `"two"`. -/
def failTwoTranslate : String → Option String :=
  fun s => if s = "two" then none else some ("J" ++ s)

/-- A source tree holding one markdown file in a sub-directory:
`src/a/doc.md`. -/
def nestedRoot : Entries :=
  Entries.dirCons "a" true true (Entries.fileCons "doc.md" true Entries.nil)
    Entries.nil

/-- The filesystem for `nestedRoot` before any run: only the source
file `src/a/doc.md` exists (mtime 5, content `"hello"`). -/
def nestedFS : FS where
  access := fun p => p = ["src"]
  stat := fun p => if p = ["src", "a", "doc.md"] then some ⟨true, 5⟩ else none
  content := fun p => if p = ["src", "a", "doc.md"] then some "hello" else none

/-- First complete run over the nested tree. -/
def firstRun : RunResult :=
  checkSourceDirectory exampleConfig okTranslate true nestedRoot nestedFS 10

/-- Second run over the unchanged tree, starting from the filesystem
the first run left behind. -/
def secondRun : RunResult :=
  checkSourceDirectory exampleConfig okTranslate true nestedRoot firstRun.fs
    firstRun.clock

/-- A filesystem where the nested source `src/a/doc.md` (mtime 5) has
an up-to-date translation at its mirrored output location
`out/m/a/doc.md` (mtime 20), and nothing exists at `out/m/doc.md`. -/
def mirroredOutputFS : FS where
  access := fun p => p = ["src"]
  stat := fun p =>
    if p = ["src", "a", "doc.md"] then some ⟨true, 5⟩
    else if p = ["out", "m", "a", "doc.md"] then some ⟨true, 20⟩
    else none
  content := fun p => if p = ["src", "a", "doc.md"] then some "hello" else none

/-- The discovered batch of a flat three-file source tree. -/
def flatThreeFiles : List Path :=
  [["src", "one.md"], ["src", "two.md"], ["src", "three.md"]]

/-- The flat three-file filesystem: sources `one.md`, `two.md`,
`three.md` (contents `"one"`, `"two"`, `"three"`), no outputs. -/
def flatThreeFS : FS where
  access := fun p => p = ["src"]
  stat := fun p =>
    if p = ["src", "one.md"] then some ⟨true, 0⟩
    else if p = ["src", "two.md"] then some ⟨true, 0⟩
    else if p = ["src", "three.md"] then some ⟨true, 0⟩
    else none
  content := fun p =>
    if p = ["src", "one.md"] then some "one"
    else if p = ["src", "two.md"] then some "two"
    else if p = ["src", "three.md"] then some "three"
    else none

/-- The three-item batch in which only item 2's translation fails. -/
def flatThreeBatch : BatchResult :=
  processBatchWithDelay exampleConfig failTwoTranslate flatThreeFiles
    flatThreeFS 0

/-- A filesystem where the flat source `src/doc.md` (mtime 5) already
has an up-to-date output at `out/m/doc.md` (mtime 20), so the item is
skipped. -/
def flatSkipFS : FS where
  access := fun p => p = ["src"]
  stat := fun p =>
    if p = ["src", "doc.md"] then some ⟨true, 5⟩
    else if p = ["out", "m", "doc.md"] then some ⟨true, 20⟩
    else none
  content := fun p => if p = ["src", "doc.md"] then some "hello" else none

/-- Processing the single item of `flatSkipFS`: it is skipped. -/
def flatSkipItem : ItemResult :=
  processItem exampleConfig okTranslate flatSkipFS 0 ["src", "doc.md"]

/-- A filesystem on which `fs.access` always rejects: the source root
does not exist. -/
def noRootFS : FS where
  access := fun _ => false
  stat := fun _ => none
  content := fun _ => none

/-! ## Helper lemmas -/

/-- Sanitizing a character list that is all `[\w.-]` is the identity. -/
theorem map_sanitize_of_all (l : List Char) (h : l.all isWordDotDash = true) :
    l.map (fun c => if isWordDotDash c then c else '_') = l := by
  induction l with
  | nil => rfl
  | cons c l ih =>
      simp only [List.all_cons, Bool.and_eq_true] at h
      simp only [List.map_cons, h.1, if_true, List.cons.injEq, true_and]
      exact ih h.2

/-- Conversely, if sanitizing a character list is the identity, every
character is in `[\w.-]` (an out-of-class character would become `'_'`,
which is itself in the class). -/
theorem all_of_map_sanitize (l : List Char)
    (h : l.map (fun c => if isWordDotDash c then c else '_') = l) :
    l.all isWordDotDash = true := by
  induction l with
  | nil => rfl
  | cons c l ih =>
      simp only [List.map_cons, List.cons.injEq] at h
      simp only [List.all_cons, Bool.and_eq_true]
      refine ⟨?_, ih h.2⟩
      by_cases hc : isWordDotDash c = true
      · exact hc
      · exfalso
        simp only [hc, if_false] at h
        rw [← h.1] at hc
        simp [isWordDotDash] at hc

/-- The model directory name equals the model name iff the model name
contains only word characters, dots and hyphens. -/
theorem MODEL_DIR_NAME_eq_self_iff (m : String) :
    MODEL_DIR_NAME m = m ↔ m.data.all isWordDotDash = true := by
  constructor
  · intro h
    exact all_of_map_sanitize m.data (congrArg String.data h)
  · intro h
    exact congrArg String.mk (map_sanitize_of_all m.data h)

/-! ## Claim theorems -/

/-- Claim C1 (code bug): the batch is NOT idempotent.  On the source
tree holding the single document `src/a/doc.md`, the first complete run
(no force-mode) translates it and writes `out/m/a/doc.md`; the second
run over the unchanged tree, with the same output root and model
identifier, translates it again (summary `completed 1 1 0`: one
discovered, one translated, zero skipped) instead of skipping it,
because the staleness check consults `out/m/doc.md` (basename only)
while the save wrote `out/m/a/doc.md`. -/
theorem C1_second_run_retranslates_nested_file :
    firstRun.outcome = RunOutcome.completed 1 1 0
    ∧ secondRun.outcome = RunOutcome.completed 1 1 0 := by
  constructor <;> decide

/-- Claim C2 (code bug): the staleness oracle answers `false` for the
source `src/a/doc.md` (mtime 5) even though an output file exists at
its OutputLocation `out/m/a/doc.md` = `OUTPUT_DIR ++
relativePath(SOURCE_DIR, source)` with modification time 20 ≥ 5 — the
oracle stats `out/m/doc.md` (basename only) instead. -/
theorem C2_oracle_misses_mirrored_output :
    isAlreadyTranslated exampleConfig mirroredOutputFS ["src", "a", "doc.md"]
        = false
    ∧ mirroredOutputFS.stat
        (OUTPUT_DIR exampleConfig
          ++ relativePath exampleConfig.SOURCE_DIR ["src", "a", "doc.md"])
        = some ⟨true, 20⟩
    ∧ mirroredOutputFS.stat ["src", "a", "doc.md"] = some ⟨true, 5⟩ := by
  refine ⟨?_, ?_, ?_⟩ <;> decide

/-- Claim C5, counterexample: an item that ends `Skipped` gets NO
pacing delay — the `continue` in the skip branch bypasses the
`setTimeout`.  Concretely, the already-translated `src/doc.md` is
skipped (skip counter incremented) and its event trace contains no
delay, refuting "the orchestrator performs the fixed pacing delay after
that item ... whether it ends Skipped, Saved, or Failed". -/
theorem C5_skipped_item_has_no_delay :
    flatSkipItem.skipped = 1 ∧ Event.delay ∉ flatSkipItem.events := by
  constructor <;> decide

/-- Claim C3, counterexample: the model identifier is NOT used verbatim
as a path component.  For model name `m/x`, source root `S` and output
root `O`, the document `S/a/b/doc.md` is written to
`O/m_x/a/b/doc.md`, not to `O/(m/x)/a/b/doc.md`. -/
theorem C3_model_name_not_verbatim :
    savedOutputPath ⟨["S"], ["O"], "m/x", false⟩ ["S", "a", "b", "doc.md"]
        ≠ ["O", "m/x", "a", "b", "doc.md"]
    ∧ savedOutputPath ⟨["S"], ["O"], "m/x", false⟩ ["S", "a", "b", "doc.md"]
        = ["O", "m_x", "a", "b", "doc.md"] := by
  constructor <;> decide

/-- Claim C9 (confirmed): the staleness check consults only the stat of
`OUTPUT_DIR ++ [basename p]` (= `checkedOutputPath`, which ignores the
source path's directory) and the stat of the source path itself: two
source files with the same basename — in possibly different
subdirectories, on possibly different filesystems agreeing at those two
locations — get the same answer. -/
theorem C9_staleness_depends_only_on_basename
    (c : Config) (fs₁ fs₂ : FS) (p q : Path)
    (hbase : basename p = basename q)
    (hout : fs₁.stat (checkedOutputPath c p) = fs₂.stat (checkedOutputPath c q))
    (hsrc : fs₁.stat p = fs₂.stat q) :
    checkedOutputPath c p = checkedOutputPath c q
    ∧ isAlreadyTranslated c fs₁ p = isAlreadyTranslated c fs₂ q := by
  refine ⟨by simp [checkedOutputPath, hbase], ?_⟩
  simp only [isAlreadyTranslated]
  rw [hout, hsrc]

/-- Witness for C9: `src/a/doc.md` and `src/b/doc.md` share the
basename `doc.md`, so on `mirroredOutputFS` (extended with a stat for
the second path equal to the first's) the oracle gives both the same
answer. -/
theorem C9_witness :
    checkedOutputPath exampleConfig ["src", "a", "doc.md"]
        = checkedOutputPath exampleConfig ["src", "b", "doc.md"]
    ∧ isAlreadyTranslated exampleConfig mirroredOutputFS ["src", "a", "doc.md"]
        = isAlreadyTranslated exampleConfig
            ⟨mirroredOutputFS.access,
              fun p => if p = ["src", "b", "doc.md"] then some ⟨true, 5⟩
                else mirroredOutputFS.stat p,
              mirroredOutputFS.content⟩
            ["src", "b", "doc.md"] :=
  C9_staleness_depends_only_on_basename exampleConfig mirroredOutputFS
    ⟨mirroredOutputFS.access,
      fun p => if p = ["src", "b", "doc.md"] then some ⟨true, 5⟩
        else mirroredOutputFS.stat p,
      mirroredOutputFS.content⟩
    ["src", "a", "doc.md"] ["src", "b", "doc.md"]
    (by decide) (by decide) (by decide)

/-- Claim C10 (confirmed): the model-name path component is sanitized,
not verbatim — `MODEL_DIR_NAME` maps every character outside `[\w.-]`
(word character, dot, hyphen) to an underscore, and it is the identity
on the model name exactly when the name contains only such
characters.  `OUTPUT_DIR` places this sanitized component under the
output root. -/
theorem C10_model_dir_name_sanitized (c : Config) :
    (MODEL_DIR_NAME c.MODEL_NAME).data
        = c.MODEL_NAME.data.map (fun ch => if isWordDotDash ch then ch else '_')
    ∧ (MODEL_DIR_NAME c.MODEL_NAME = c.MODEL_NAME
        ↔ c.MODEL_NAME.data.all isWordDotDash = true)
    ∧ OUTPUT_DIR c = c.BASE_OUTPUT_DIR ++ [ MODEL_DIR_NAME c.MODEL_NAME ] :=
  ⟨rfl, MODEL_DIR_NAME_eq_self_iff c.MODEL_NAME, rfl⟩

/-- Witness for C10: the default model name `gemini-2.0-flash` consists
only of `[\w.-]` characters, so its directory component is verbatim. -/
theorem C10_witness :
    MODEL_DIR_NAME (Config.MODEL_NAME ⟨["src"], ["out"], "gemini-2.0-flash", false⟩)
        = "gemini-2.0-flash" :=
  (C10_model_dir_name_sanitized ⟨["src"], ["out"], "gemini-2.0-flash", false⟩).2.1.mpr
    (by decide)

/-- Claim C3, amended (corrected): for source root `S`, output root `O`
and a document at `S ++ rel`, the written output path is exactly
`O ++ [MODEL_DIR_NAME model] ++ rel` — the mirrored relative path under
the SANITIZED model-name component; the component is the verbatim model
identifier whenever the identifier contains only word characters, dots
and hyphens. -/
theorem C3_output_path_mirrors_with_sanitized_model
    (S O : Path) (model : String) (force : Bool) (rel : Path) :
    savedOutputPath ⟨S, O, model, force⟩ (S ++ rel)
        = O ++ [ MODEL_DIR_NAME model ] ++ rel
    ∧ (model.data.all isWordDotDash = true →
        savedOutputPath ⟨S, O, model, force⟩ (S ++ rel) = O ++ [model] ++ rel) := by
  have h1 : savedOutputPath ⟨S, O, model, force⟩ (S ++ rel)
      = O ++ [ MODEL_DIR_NAME model ] ++ rel := by
    simp only [savedOutputPath, OUTPUT_DIR, relativePath]
    rw [if_pos (List.prefix_append S rel), List.drop_left]
  refine ⟨h1, fun hall => ?_⟩
  rw [h1, (MODEL_DIR_NAME_eq_self_iff model).mpr hall]

/-- Witness for C3: the all-`[\w.-]` model name `gem` appears verbatim
in the mirrored output path of `S/a/doc.md`. -/
theorem C3_witness :
    savedOutputPath ⟨["S"], ["O"], "gem", false⟩ (["S"] ++ ["a", "doc.md"])
        = ["O"] ++ ["gem"] ++ ["a", "doc.md"] :=
  (C3_output_path_mirrors_with_sanitized_model ["S"] ["O"] "gem" false
    ["a", "doc.md"]).2 (by decide)

/-- Claim C5, amended (corrected): the pacing delay is performed after
an item exactly when the item reaches the translation call — it is not
skipped by the staleness check (or force-mode bypasses the check) and
its content read yields non-empty text.  Items ending `Skipped` or
failing the read advance to the next item with no delay; items reaching
translation incur the delay whether translation and saving succeed or
fail. -/
theorem C5_delay_iff_reaches_translation
    (c : Config) (tr : String → Option String) (fs : FS) (clock : Nat)
    (f : Path) :
    Event.delay ∈ (processItem c tr fs clock f).events
      ↔ ((c.FORCE_TRANSLATE = true ∨ isAlreadyTranslated c fs f = false)
          ∧ readMarkdownFile fs f ≠ "") := by
  cases hF : c.FORCE_TRANSLATE with
  | true =>
      by_cases hc : readMarkdownFile fs f = ""
      · simp [processItem, hF, hc]
      · simp only [processItem, hF, Bool.not_true, Bool.false_and,
          Bool.false_eq_true, if_false, hc]
        split <;> simp [hc]
  | false =>
      cases hA : isAlreadyTranslated c fs f with
      | true =>
          simp [processItem, hF, hA]
      | false =>
          by_cases hc : readMarkdownFile fs f = ""
          · simp [processItem, hF, hA, hc]
          · simp only [processItem, hF, hA, Bool.not_false, Bool.true_and,
              Bool.false_eq_true, if_false, hc]
            split <;> simp [hc]

/-- Witness for C5 (amended): an item whose translation FAILS still
incurs the pacing delay — `src/two.md` of the three-item batch. -/
theorem C5_witness :
    Event.delay ∈ (processItem exampleConfig failTwoTranslate flatThreeFS 0
        ["src", "two.md"]).events :=
  (C5_delay_iff_reaches_translation exampleConfig failTwoTranslate flatThreeFS 0
    ["src", "two.md"]).mpr ⟨Or.inr (by decide), by decide⟩

/-- Claim C4 (confirmed): per-item fail-soft and failure isolation.
(1) When the service call fails (`none`) or yields an unusable empty
response, the adapter returns the empty string instead of propagating.
(2) For any item that reaches translation and whose translation comes
back empty, the filesystem is unchanged (no output written), neither
counter is incremented, and no write event occurs; the loop then simply
proceeds to the next item.  (3) In the concrete 3-item batch where only
item 2's translation fails, items 1 and 3 are saved and
`translatedCount = 2`. -/
theorem C4_failure_isolation :
    (∀ (tr : String → Option String) (text : String),
        tr text = none ∨ tr text = some "" → translateToJapanese tr text = "")
    ∧ (∀ (c : Config) (tr : String → Option String) (fs : FS) (clock : Nat)
          (f : Path),
        (c.FORCE_TRANSLATE = true ∨ isAlreadyTranslated c fs f = false) →
        translateToJapanese tr (readMarkdownFile fs f) = "" →
        (processItem c tr fs clock f).fs = fs
        ∧ (processItem c tr fs clock f).translated = 0
        ∧ (processItem c tr fs clock f).skipped = 0
        ∧ ∀ p, Event.fileWrite p ∉ (processItem c tr fs clock f).events)
    ∧ (flatThreeBatch.translatedCount = 2
        ∧ flatThreeBatch.skippedCount = 0
        ∧ Event.fileWrite (savedOutputPath exampleConfig ["src", "two.md"])
            ∉ flatThreeBatch.events
        ∧ Event.fileWrite (savedOutputPath exampleConfig ["src", "one.md"])
            ∈ flatThreeBatch.events
        ∧ Event.fileWrite (savedOutputPath exampleConfig ["src", "three.md"])
            ∈ flatThreeBatch.events) := by
  refine ⟨?_, ?_, ?_⟩
  · rintro tr text (h | h) <;> simp [translateToJapanese, h]
  · intro c tr fs clock f hskip hfail
    have hcond : (!c.FORCE_TRANSLATE && isAlreadyTranslated c fs f) = false := by
      rcases hskip with h | h <;> simp [h]
    simp only [processItem, hcond, Bool.false_eq_true, if_false]
    by_cases hc : readMarkdownFile fs f = ""
    · refine ⟨by simp [hc], by simp [hc], by simp [hc], fun p => ?_⟩
      simp [hc]
    · refine ⟨by simp [hc, hfail], by simp [hc, hfail], by simp [hc, hfail],
        fun p => ?_⟩
      simp [hc, hfail]
  · exact ⟨by decide, by decide, by decide, by decide, by decide⟩

/-- Witness for C4: instantiated at item 2 of the three-item batch —
its translation fails, the adapter returns empty, no write happens, no
counter moves. -/
theorem C4_witness :
    translateToJapanese failTwoTranslate "two" = ""
    ∧ (processItem exampleConfig failTwoTranslate flatThreeFS 0
        ["src", "two.md"]).fs = flatThreeFS
    ∧ (processItem exampleConfig failTwoTranslate flatThreeFS 0
        ["src", "two.md"]).translated = 0
    ∧ (processItem exampleConfig failTwoTranslate flatThreeFS 0
        ["src", "two.md"]).skipped = 0
    ∧ Event.fileWrite ["out", "m", "two.md"]
        ∉ (processItem exampleConfig failTwoTranslate flatThreeFS 0
            ["src", "two.md"]).events := by
  have h := C4_failure_isolation.2.1 exampleConfig failTwoTranslate flatThreeFS 0
    ["src", "two.md"] (Or.inr (by decide)) (by decide)
  exact ⟨C4_failure_isolation.1 failTwoTranslate "two" (Or.inl (by decide)),
    h.1, h.2.1, h.2.2.1, h.2.2.2 ["out", "m", "two.md"]⟩

/-- `translateMarkdownFiles` always completes, reporting the number of
discovered files and the batch counters (the empty-batch early return
coincides with the batch of `[]`). -/
theorem translateMarkdownFiles_eq (c : Config) (tr : String → Option String)
    (rootReadable : Bool) (root : Entries) (fs : FS) (clock : Nat) :
    translateMarkdownFiles c tr rootReadable root fs clock =
      ⟨RunOutcome.completed
          (findMarkdownFiles c.SOURCE_DIR rootReadable root).length
          (processBatchWithDelay c tr
            (findMarkdownFiles c.SOURCE_DIR rootReadable root) fs
            clock).translatedCount
          (processBatchWithDelay c tr
            (findMarkdownFiles c.SOURCE_DIR rootReadable root) fs
            clock).skippedCount,
        (processBatchWithDelay c tr
          (findMarkdownFiles c.SOURCE_DIR rootReadable root) fs clock).fs,
        (processBatchWithDelay c tr
          (findMarkdownFiles c.SOURCE_DIR rootReadable root) fs clock).clock,
        (processBatchWithDelay c tr
          (findMarkdownFiles c.SOURCE_DIR rootReadable root) fs
          clock).events⟩ := by
  simp only [translateMarkdownFiles]
  split
  · next h =>
      rw [List.isEmpty_iff.mp h]
      rfl
  · rfl

/-- Claim C6 (confirmed): when `fs.access` on the source root rejects,
the run aborts immediately — the result is the aborted outcome with the
filesystem untouched and an EMPTY event trace (so no translation-service
call and no write ever happened); and this is the only abort: whenever
the source root is accessible, the run proceeds to
`translateMarkdownFiles` and completes. -/
theorem C6_missing_root_aborts_only
    (c : Config) (tr : String → Option String) (rootReadable : Bool)
    (root : Entries) (fs : FS) (clock : Nat) :
    (fs.access c.SOURCE_DIR = false →
        checkSourceDirectory c tr rootReadable root fs clock
          = ⟨RunOutcome.aborted, fs, clock, []⟩)
    ∧ (fs.access c.SOURCE_DIR = true →
        checkSourceDirectory c tr rootReadable root fs clock
          = translateMarkdownFiles c tr rootReadable root fs clock
        ∧ (checkSourceDirectory c tr rootReadable root fs clock).outcome
            ≠ RunOutcome.aborted) := by
  constructor
  · intro h
    simp [checkSourceDirectory, h]
  · intro h
    have he : checkSourceDirectory c tr rootReadable root fs clock
        = translateMarkdownFiles c tr rootReadable root fs clock := by
      simp [checkSourceDirectory, h]
    refine ⟨he, ?_⟩
    rw [he, translateMarkdownFiles_eq]
    simp

/-- Witness for C6: on a filesystem whose `access` always rejects the
run aborts with an empty trace; on the nested-tree filesystem it does
not abort. -/
theorem C6_witness :
    checkSourceDirectory exampleConfig okTranslate true nestedRoot noRootFS 0
        = ⟨RunOutcome.aborted, noRootFS, 0, []⟩
    ∧ (checkSourceDirectory exampleConfig okTranslate true nestedRoot nestedFS
          10).outcome ≠ RunOutcome.aborted :=
  ⟨(C6_missing_root_aborts_only exampleConfig okTranslate true nestedRoot
      noRootFS 0).1 (by decide),
   ((C6_missing_root_aborts_only exampleConfig okTranslate true nestedRoot
      nestedFS 10).2 (by decide)).2⟩

/-- Claim C7 (confirmed): scanner error containment.  A root directory
whose `readdir` fails (non-existent or unreadable) yields the empty
list; and anywhere in a traversal, a sub-directory whose `readdir`
fails behaves exactly like an empty readable directory — it contributes
zero files while the enclosing enumeration (preceding and following
siblings) is unaffected.  (The scanner is a total function in this
model: it never throws.) -/
theorem C7_scanner_error_containment
    (dirPath : Path) (children : Entries) (name : String)
    (es rest : Entries) :
    findMarkdownFiles dirPath false children = []
    ∧ scanEntries dirPath (Entries.dirCons name true false es rest)
        = scanEntries dirPath (Entries.dirCons name true true Entries.nil rest)
    ∧ findMarkdownFiles dirPath true
          (Entries.dirCons name true false es rest)
        = findMarkdownFiles dirPath true
            (Entries.dirCons name true true Entries.nil rest) :=
  ⟨rfl, rfl, rfl⟩

/-- Processing an item never empties a readable file: the only
filesystem change a step can make is writing non-empty translated text
(the save branch requires a non-empty translation). -/
theorem readMarkdownFile_processItem_ne (c : Config)
    (tr : String → Option String) (fs : FS) (clock : Nat) (f p : Path)
    (h : readMarkdownFile fs p ≠ "") :
    readMarkdownFile (processItem c tr fs clock f).fs p ≠ "" := by
  simp only [processItem]
  split
  · exact h
  · by_cases hc : readMarkdownFile fs f = ""
    · simp only [if_pos hc]
      exact h
    · simp only [if_neg hc]
      by_cases ht : translateToJapanese tr (readMarkdownFile fs f) = ""
      · simp only [if_pos ht]
        exact h
      · simp only [if_neg ht]
        show readMarkdownFile (saveTranslatedFile c fs f
            (translateToJapanese tr (readMarkdownFile fs f)) clock) p ≠ ""
        simp only [saveTranslatedFile, writeFile, readMarkdownFile]
        split
        · simpa using ht
        · simpa [readMarkdownFile] using h

/-- With force-mode on, one item step consults no staleness oracle,
skips nothing, and reaches the translation call whenever its content is
readable and non-empty. -/
theorem processItem_force (c : Config) (tr : String → Option String)
    (fs : FS) (clock : Nat) (f : Path) (hF : c.FORCE_TRANSLATE = true) :
    (processItem c tr fs clock f).skipped = 0
    ∧ (∀ p, Event.oracleCheck p ∉ (processItem c tr fs clock f).events)
    ∧ (readMarkdownFile fs f ≠ "" →
        Event.serviceCall f ∈ (processItem c tr fs clock f).events) := by
  simp only [processItem, hF, Bool.not_true, Bool.false_and,
    Bool.false_eq_true, if_false, if_true]
  by_cases hc : readMarkdownFile fs f = ""
  · simp [hc]
  · simp only [if_neg hc]
    refine ⟨?_, ?_, ?_⟩ <;> split <;> simp [hc]

/-- Claim C8 (confirmed): force override.  With force-mode enabled, the
staleness oracle is never consulted (no oracle event for any path), the
final `skippedCount` is zero, and every discovered document whose
content is readable and non-empty reaches the translation call —
existing outputs never prevent translation. -/
theorem C8_force_override (c : Config) (tr : String → Option String)
    (files : List Path) (fs : FS) (clock : Nat)
    (hF : c.FORCE_TRANSLATE = true) :
    (∀ p, Event.oracleCheck p
        ∉ (processBatchWithDelay c tr files fs clock).events)
    ∧ (processBatchWithDelay c tr files fs clock).skippedCount = 0
    ∧ (∀ f ∈ files, readMarkdownFile fs f ≠ "" →
        Event.serviceCall f
          ∈ (processBatchWithDelay c tr files fs clock).events) := by
  induction files generalizing fs clock with
  | nil => simp [processBatchWithDelay]
  | cons f₀ rest ih =>
      obtain ⟨hsk, hor, hsc⟩ := processItem_force c tr fs clock f₀ hF
      obtain ⟨ih1, ih2, ih3⟩ :=
        ih (processItem c tr fs clock f₀).fs (processItem c tr fs clock f₀).clock
      refine ⟨?_, ?_, ?_⟩
      · intro p
        simp only [processBatchWithDelay, List.mem_append, not_or]
        exact ⟨hor p, ih1 p⟩
      · simp only [processBatchWithDelay]
        rw [hsk, ih2]
      · intro f hf hne
        simp only [processBatchWithDelay, List.mem_append]
        rcases List.mem_cons.mp hf with rfl | hrest
        · exact Or.inl (hsc hne)
        · exact Or.inr (ih3 f hrest
            (readMarkdownFile_processItem_ne c tr fs clock f₀ f hne))

/-- Witness for C8: the three-item flat batch under force-mode — no
oracle consultation for item 1, zero skips, and item 2 reaches the
service. -/
theorem C8_witness :
    Event.oracleCheck ["src", "one.md"]
        ∉ (processBatchWithDelay forceConfig okTranslate flatThreeFiles
            flatThreeFS 0).events
    ∧ (processBatchWithDelay forceConfig okTranslate flatThreeFiles
        flatThreeFS 0).skippedCount = 0
    ∧ Event.serviceCall ["src", "two.md"]
        ∈ (processBatchWithDelay forceConfig okTranslate flatThreeFiles
            flatThreeFS 0).events := by
  have h := C8_force_override forceConfig okTranslate flatThreeFiles
    flatThreeFS 0 (by decide)
  exact ⟨h.1 ["src", "one.md"], h.2.1,
    h.2.2 ["src", "two.md"] (by decide) (by decide)⟩

end MdTranslator
